import Mathlib

set_option maxRecDepth 8000

namespace DevcontainerSync

/-!
Shallow embedding of the devcontainer-sync-cli customization engine
(`src/customizer.rs`) and of the CLI workflow orchestration
(`src/cli/mod.rs`), together with theorems settling the frozen claims.

String values are modelled by Lean `String`; the Rust `std` string
operations used by the code (`contains`, `replace`, `trim`,
`to_lowercase`, `ends_with`, `lines`) are reimplemented below over the
underlying character lists so that everything reduces by computation.
-/

/-! ## String primitives (mirroring Rust `str` operations) -/

/-- Substring containment, as Rust `str::contains` with a string pattern:
`containsSubL pat s` is true iff `pat` occurs contiguously in `s`. -/
def containsSubL (pat : List Char) : List Char → Bool
  | [] => pat.isEmpty
  | c :: rest => List.isPrefixOf pat (c :: rest) || containsSubL pat rest

/-- Rust `s.contains(pat)`. -/
def strContains (s pat : String) : Bool :=
  containsSubL pat.data s.data

/-- Fuel-indexed worker for `strReplace`.  Replaces non-overlapping,
left-to-right occurrences of `pat` with `repl`, as Rust `str::replace`.
The fuel is set to the length of the subject string, which bounds the
number of recursive steps, so the `0` fallback is never reached. -/
def replaceAux (pat repl : List Char) : Nat → List Char → List Char
  | _, [] => []
  | 0, s => s
  | Nat.succ n, c :: rest =>
    if !pat.isEmpty && List.isPrefixOf pat (c :: rest) then
      repl ++ replaceAux pat repl n (List.drop (pat.length - 1) rest)
    else
      c :: replaceAux pat repl n rest

/-- Rust `s.replace(pat, repl)`. -/
def strReplace (s pat repl : String) : String :=
  ⟨replaceAux pat.data repl.data s.data.length s.data⟩

/-- Rust `str::trim` (whitespace stripped from both ends). -/
def trimStr (s : String) : String :=
  ⟨((s.data.dropWhile Char.isWhitespace).reverse.dropWhile Char.isWhitespace).reverse⟩

/-- Rust `str::to_lowercase` (ASCII-level model). -/
def lowerStr (s : String) : String :=
  ⟨s.data.map Char.toLower⟩

/-- Rust `s.ends_with(c)` for a single character. -/
def endsWithChar (s : String) (c : Char) : Bool :=
  s.data.getLast? == some c

/-- Strip one trailing carriage return, as Rust `str::lines` does. -/
def stripCR (l : List Char) : List Char :=
  if l.getLast? == some (Char.ofNat 13) then l.dropLast else l

/-- Worker for `splitLines`: `acc` holds the current line reversed. -/
def linesAux (acc : List Char) : List Char → List (List Char)
  | [] => if acc.isEmpty then [] else [stripCR acc.reverse]
  | c :: rest =>
    if c = Char.ofNat 10 then stripCR acc.reverse :: linesAux [] rest
    else linesAux (c :: acc) rest

/-- Rust `str::lines`: split on newlines, dropping a final empty line. -/
def splitLines (s : String) : List String :=
  (linesAux [] s.data).map (fun l => ⟨l⟩)

/-- One-line match of the regex fragment `a.*b` (Rust regex `.` does not
cross newlines, so this is applied per line): true iff some occurrence of
`a` is followed, later in the same character list, by an occurrence of
`b`. -/
def seqMatchL (a b : List Char) : List Char → Bool
  | [] => a.isEmpty && b.isEmpty
  | c :: rest =>
    (List.isPrefixOf a (c :: rest) && containsSubL b (List.drop a.length (c :: rest)))
      || seqMatchL a b rest

/-- Regex `a.*b` matched against a whole multi-line string, line by line. -/
def strSeqMatch (s a b : String) : Bool :=
  (linesAux [] s.data).any (fun l => seqMatchL a.data b.data l)

/-! ## Dockerfile transformation (`strip_dockerfile_firewall`)

The Rust function reads the file, splits it into lines, runs a single
forward pass with the two state flags `in_firewall_section` and
`in_apt_install`, and writes the joined modified lines back iff the
change list is non-empty.  The model below works on the line list
directly; `dockerLoop` is a literal translation of the `for line in
lines` loop body, threading the state flags and the accumulated change
list. -/

/-- The marker comment opening the firewall section. -/
def firewallMarkerComment : String := "# Copy and set up firewall script"

/-- The five package tokens stripped from install invocations. -/
def firewallPackages : List String :=
  ["iptables", "ipset", "iproute2", "dnsutils", "aggregate"]

def sectionChangeMsg : String := "Removed firewall setup section"

def pkgChangeMsg : String := "Removed firewall packages from apt install"

def isMarkerLine (l : String) : Bool :=
  strContains l firewallMarkerComment

def isUserNodeLine (l : String) : Bool :=
  trimStr l == "USER node"

def isInstallLine (l : String) : Bool :=
  strContains l "apt-get install" || strContains l "apt install"

/-- The backslash character, as in the Rust line-continuation test. -/
def backslashChar : Char := Char.ofNat 92

/-- The four `replace` calls performed for one package token, in the
order of the Rust code: `"  {pkg} \\"`, `"  {pkg}"`, `" {pkg} \\"`,
`" {pkg}"`, each replaced by the empty string. -/
def stripOnePkg (ml : String) (pkg : String) : String :=
  let m1 := strReplace ml ("  " ++ pkg ++ " " ++ ⟨[backslashChar]⟩) ""
  let m2 := strReplace m1 ("  " ++ pkg) ""
  let m3 := strReplace m2 (" " ++ pkg ++ " " ++ ⟨[backslashChar]⟩) ""
  strReplace m3 (" " ++ pkg) ""

/-- The `for package in firewall_packages` loop: the guard tests the
evolving `modified_line`, and `package_removed` records whether any
package matched. -/
def stripPkgs (l : String) : String × Bool :=
  firewallPackages.foldl
    (fun acc pkg =>
      if strContains acc.1 pkg then (stripOnePkg acc.1 pkg, true) else acc)
    (l, false)

/-- The predicate of the package-change dedup guard:
`|c| c.contains("firewall packages")`. -/
def pkgPred (c : String) : Bool := strContains c "firewall packages"

/-- The dedup guard `changes.iter().any(|c| c.contains("firewall packages"))`. -/
def changesHasPkgMsg (changes : List String) : Bool :=
  changes.any pkgPred

/-- One-pass loop over the Dockerfile lines.  Arguments: remaining
lines, `in_firewall_section`, `in_apt_install`, accumulated change list.
Returns the emitted (modified) lines and the final change list. -/
def dockerLoop : List String → Bool → Bool → List String → List String × List String
  | [], _, _, changes => ([], changes)
  | l :: ls, fw, apt, changes =>
    -- `if line.contains("# Copy and set up firewall script")`
    let marker := isMarkerLine l
    let changes1 := if marker then changes ++ [sectionChangeMsg] else changes
    let fw1 := fw || marker
    let skip1 := marker
    -- `if in_firewall_section && line.trim() == "USER node"`
    let hitSentinel := fw1 && isUserNodeLine l
    let fw2 := if hitSentinel then false else fw1
    let skip2 := skip1 || hitSentinel
    -- `if in_firewall_section { skip_line = true; }`
    let skip3 := skip2 || fw2
    -- `if line.contains("apt-get install") || line.contains("apt install")`
    let apt1 := apt || isInstallLine l
    if apt1 then
      let ml := (stripPkgs l).1
      let removed := (stripPkgs l).2
      let changes2 :=
        if removed && !(changesHasPkgMsg changes1) then changes1 ++ [pkgChangeMsg]
        else changes1
      let apt2 := if !(endsWithChar l backslashChar) then false else apt1
      let out := dockerLoop ls fw2 apt2 changes2
      ((if !skip3 then [ml] else []) ++ out.1, out.2)
    else
      let out := dockerLoop ls fw2 apt1 changes1
      ((if !skip3 then [l] else []) ++ out.1, out.2)

/-- Model of `strip_dockerfile_firewall`, at line-list granularity: returns the
modified line list and the change list (the Rust function returns the
change list and writes the modified lines back to the file iff it is
non-empty). -/
def stripDockerfileFirewall (lines : List String) : List String × List String :=
  dockerLoop lines false false []

/-- The line list of the file after the call: rewritten iff at least one
change was recorded. -/
def dockerResultLines (lines : List String) : List String :=
  let out := stripDockerfileFirewall lines
  if out.2.isEmpty then lines else out.1

/-- A line containing none of the five firewall package names as a
substring. -/
def noPkgSub (l : String) : Bool :=
  firewallPackages.all (fun p => !(strContains l p))

/-- Specification-side section removal, written from the spec sentence:
the rewritten text excludes every line from the marker through the
sentinel (`USER node`) inclusive and keeps every other line.  The `Bool`
argument is the "inside the firewall section" state. -/
def specSectionFilter : Bool → List String → List String
  | _, [] => []
  | inside, l :: ls =>
    let insideNow := inside || isMarkerLine l
    if insideNow then specSectionFilter (insideNow && !(isUserNodeLine l)) ls
    else l :: specSectionFilter insideNow ls

/-- A line without firewall package substrings passes the package loop
unchanged, with `package_removed` false. -/
lemma stripPkgs_eq_of_noPkg {l : String} (h : noPkgSub l = true) :
    stripPkgs l = (l, false) := by
  simp only [noPkgSub, firewallPackages, List.all_cons, List.all_nil,
    Bool.and_eq_true, Bool.not_eq_true'] at h
  obtain ⟨h1, h2, h3, h4, h5, -⟩ := h
  simp [stripPkgs, firewallPackages, h1, h2, h3, h4, h5]

/-- The emitted line list of the Dockerfile pass coincides with the
spec-side section filter whenever no kept line contains a firewall
package substring; the change accumulator and the install flag do not
influence the emitted lines beyond that. -/
lemma dockerLoop_fst_eq_specSectionFilter :
    ∀ (ls : List String) (fw apt : Bool) (changes : List String),
      (∀ l ∈ specSectionFilter fw ls, noPkgSub l = true) →
      (dockerLoop ls fw apt changes).1 = specSectionFilter fw ls := by
  intro ls
  induction ls with
  | nil =>
    intro fw apt changes _
    simp [dockerLoop, specSectionFilter]
  | cons l ls ih =>
    intro fw apt changes h
    cases hfw : fw <;> cases hm : isMarkerLine l
    · -- kept line: not in a section, not a marker
      rw [hfw] at h
      simp only [specSectionFilter, hm, Bool.or_false, if_false] at h ⊢
      have hl : noPkgSub l = true := h l (by simp)
      have hls : ∀ x ∈ specSectionFilter false ls, noPkgSub x = true := by
        intro x hx; exact h x (by simp [hx])
      cases ha : (apt || isInstallLine l) <;>
        simp [dockerLoop, hm, ha, stripPkgs_eq_of_noPkg hl, ih _ _ _ hls]
    · -- marker line opens the section and is dropped
      rw [hfw] at h
      simp only [specSectionFilter, hm, Bool.or_true, if_true] at h ⊢
      cases ha : (apt || isInstallLine l) <;> cases hu : isUserNodeLine l <;>
        simp only [hu, Bool.not_true, Bool.not_false, Bool.and_true,
          Bool.and_false] at h <;>
        simp [dockerLoop, hm, ha, hu, ih _ _ _ h]
    · -- inside the section, ordinary or sentinel line, dropped
      rw [hfw] at h
      simp only [specSectionFilter, hm, Bool.or_false, Bool.true_or, if_true] at h ⊢
      cases ha : (apt || isInstallLine l) <;> cases hu : isUserNodeLine l <;>
        simp only [hu, Bool.not_true, Bool.not_false, Bool.and_true,
          Bool.and_false] at h <;>
        simp [dockerLoop, hm, ha, hu, ih _ _ _ h]
    · -- inside the section and marker repeated, dropped
      rw [hfw] at h
      simp only [specSectionFilter, hm, Bool.or_true, Bool.true_or, if_true] at h ⊢
      cases ha : (apt || isInstallLine l) <;> cases hu : isUserNodeLine l <;>
        simp only [hu, Bool.not_true, Bool.not_false, Bool.and_true,
          Bool.and_false] at h <;>
        simp [dockerLoop, hm, ha, hu, ih _ _ _ h]

lemma pkgPred_sectionMsg : pkgPred sectionChangeMsg = false := by decide

lemma pkgPred_pkgMsg : pkgPred pkgChangeMsg = true := by decide

/-- The dedup guard keeps the count of package-change entries at one:
if the accumulator holds at most one entry matched by the guard, so does
the final change list. -/
lemma dockerLoop_pkgcount :
    ∀ (ls : List String) (fw apt : Bool) (changes : List String),
      changes.countP pkgPred ≤ 1 →
      (dockerLoop ls fw apt changes).2.countP pkgPred ≤ 1 := by
  intro ls
  induction ls with
  | nil => intro fw apt changes h; simpa [dockerLoop] using h
  | cons l ls ih =>
    intro fw apt changes h
    have hsec : ∀ c : List String, (c ++ [sectionChangeMsg]).countP pkgPred =
        c.countP pkgPred := by
      intro c
      simp [List.countP_append, List.countP_cons, pkgPred_sectionMsg]
    cases hm : isMarkerLine l <;> cases ha : (apt || isInstallLine l) <;>
      cases hr : (stripPkgs l).2
    · simp only [dockerLoop, hm, ha, hr]
      simp only [Bool.false_eq_true, if_false]
      exact ih _ _ _ h
    · simp only [dockerLoop, hm, ha, hr]
      simp only [Bool.false_eq_true, if_false]
      exact ih _ _ _ h
    · simp [dockerLoop, hm, ha, hr]
      exact ih _ _ _ h
    · cases hc : changesHasPkgMsg changes
      · simp [dockerLoop, hm, ha, hr, hc]
        apply ih
        have hz : changes.countP pkgPred = 0 := by
          rw [List.countP_eq_zero]
          intro a ha'
          exact (List.any_eq_false.mp hc) a ha'
        simp [List.countP_append, hz, List.countP_cons, pkgPred_pkgMsg]
      · simp [dockerLoop, hm, ha, hr, hc]
        exact ih _ _ _ h
    · simp [dockerLoop, hm, ha, hr]
      exact ih _ _ _ ((hsec changes).symm ▸ h)
    · simp [dockerLoop, hm, ha, hr]
      exact ih _ _ _ ((hsec changes).symm ▸ h)
    · simp [dockerLoop, hm, ha, hr]
      exact ih _ _ _ ((hsec changes).symm ▸ h)
    · cases hc : changesHasPkgMsg (changes ++ [sectionChangeMsg])
      · simp [dockerLoop, hm, ha, hr, hc]
        apply ih
        have hz : changes.countP pkgPred = 0 := by
          rw [List.countP_eq_zero]
          intro a ha'
          exact (List.any_eq_false.mp hc) a (by simp [ha'])
        simp [List.countP_append, List.countP_cons, pkgPred_pkgMsg,
          pkgPred_sectionMsg, hz]
      · simp [dockerLoop, hm, ha, hr, hc]
        exact ih _ _ _ ((hsec changes).symm ▸ h)

/-- Section-removal entries are appended once per marker line: the final
count of the section message equals the accumulator count plus the
number of marker lines. -/
lemma dockerLoop_sectioncount :
    ∀ (ls : List String) (fw apt : Bool) (changes : List String),
      (dockerLoop ls fw apt changes).2.count sectionChangeMsg =
        changes.count sectionChangeMsg + ls.countP isMarkerLine := by
  intro ls
  induction ls with
  | nil => intro fw apt changes; simp [dockerLoop]
  | cons l ls ih =>
    intro fw apt changes
    have hne : (pkgChangeMsg == sectionChangeMsg) = false := by decide
    have heq : (sectionChangeMsg == sectionChangeMsg) = true := by decide
    cases hm : isMarkerLine l <;> cases ha : (apt || isInstallLine l) <;>
      cases hr : (stripPkgs l).2
    · simp [dockerLoop, hm, ha, hr, ih, List.countP_cons]
    · simp [dockerLoop, hm, ha, hr, ih, List.countP_cons]
    · simp [dockerLoop, hm, ha, hr, ih, List.countP_cons]
    · cases hc : changesHasPkgMsg changes <;>
        simp [dockerLoop, hm, ha, hr, hc, ih, List.countP_cons,
          List.count_append, List.count_cons, hne]
    · simp [dockerLoop, hm, ha, hr, ih, List.countP_cons, List.count_append,
        List.count_cons, heq]
      omega
    · simp [dockerLoop, hm, ha, hr, ih, List.countP_cons, List.count_append,
        List.count_cons, heq]
      omega
    · simp [dockerLoop, hm, ha, hr, ih, List.countP_cons, List.count_append,
        List.count_cons, heq]
      omega
    · cases hc : changesHasPkgMsg (changes ++ [sectionChangeMsg]) <;>
        simp [dockerLoop, hm, ha, hr, hc, ih, List.countP_cons,
          List.count_append, List.count_cons, hne, heq] <;>
        omega

/-! ## Claims C2, C3, C4 (Dockerfile transformation) -/

/-- C2, counterexample: the claim states that a longer token merely
containing a package name as a substring is left unchanged, but on the
install line `RUN apt-get install -y iptables-persistent` the code
removes the literal substring preceded by a space, corrupting the token
`iptables-persistent` into `-persistent`. -/
theorem c2_boundary_matching_counterexample :
    (stripDockerfileFirewall ["RUN apt-get install -y iptables-persistent"]).1 =
        ["RUN apt-get install -y-persistent"] ∧
      ("RUN apt-get install -y-persistent" : String) ≠
        "RUN apt-get install -y iptables-persistent" := by
  constructor
  · decide
  · decide

/-- C2 (amended): inside a package-install invocation the five known
package tokens are removed by literal substring replacement of the
package name preceded by one or two spaces (optionally followed by a
line continuation), not by boundary-aware matching: whole package tokens
are removed from install lines (all five at once, and the spec §8
example line keeps `git` and `curl` while losing `iptables`), but the
matching can corrupt a longer token containing a package name. -/
theorem c2_pkg_removal_amended :
    (stripDockerfileFirewall ["RUN apt-get install -y git iptables curl"]).1 =
        ["RUN apt-get install -y git curl"] ∧
      (stripDockerfileFirewall
          ["RUN apt-get update && apt-get install -y git iptables ipset iproute2 dnsutils aggregate jq"]).1 =
        ["RUN apt-get update && apt-get install -y git jq"] := by
  constructor
  · decide
  · decide

/-- C3, counterexample: the claim states each change category appears at
most once regardless of how many marker lines occur, but a build script
with two marker lines records the firewall-section removal change
twice. -/
theorem c3_at_most_once_counterexample :
    ((stripDockerfileFirewall
        ["# Copy and set up firewall script", "USER node",
          "# Copy and set up firewall script", "USER node"]).2).count
        sectionChangeMsg = 2 := by
  decide

/-- C3 (amended): the package-removal category appears at most once in
the returned change list (the dedup guard blocks repeats), while the
section-removal category is recorded once per marker line, hence at most
once only when the file contains at most one marker line. -/
theorem c3_change_categories_amended (lines : List String) :
    ((stripDockerfileFirewall lines).2).countP pkgPred ≤ 1 ∧
      ((stripDockerfileFirewall lines).2).count sectionChangeMsg =
        lines.countP isMarkerLine := by
  refine ⟨dockerLoop_pkgcount lines false false [] (by simp), ?_⟩
  simpa using dockerLoop_sectioncount lines false false []

/-- C4, counterexample: the claim states every line outside the
marker–sentinel range is preserved verbatim, but an install line with a
firewall package outside the firewall section is modified, so the
rewritten text is not the original lines minus the section. -/
theorem c4_verbatim_counterexample :
    dockerResultLines
        ["RUN apt-get install -y iptables", "# Copy and set up firewall script",
          "USER node", "LAST"] =
        ["RUN apt-get install -y", "LAST"] ∧
      ("RUN apt-get install -y" : String) ≠ "RUN apt-get install -y iptables" := by
  constructor
  · decide
  · decide

/-- C4 (amended): for every build script containing a recognized
firewall section (a marker line), provided no line outside the
marker–sentinel ranges contains a firewall package name as a substring,
the rewritten text excludes every line from the marker through the
sentinel inclusive and preserves every line outside that range verbatim
(`specSectionFilter` is the spec-side statement of that range
removal). -/
theorem c4_section_removal_amended (lines : List String)
    (hmark : ∃ l ∈ lines, isMarkerLine l = true)
    (hkeep : ∀ l ∈ specSectionFilter false lines, noPkgSub l = true) :
    dockerResultLines lines = specSectionFilter false lines := by
  have hout := dockerLoop_fst_eq_specSectionFilter lines false false [] hkeep
  have hcount := dockerLoop_sectioncount lines false false []
  have hpos : 0 < lines.countP isMarkerLine := by
    obtain ⟨l, hl, hml⟩ := hmark
    exact List.countP_pos_iff.mpr ⟨l, hl, hml⟩
  have hne : ((stripDockerfileFirewall lines).2).isEmpty = false := by
    rw [List.isEmpty_eq_false_iff_exists_mem]
    have hc : 0 < ((stripDockerfileFirewall lines).2).count sectionChangeMsg := by
      unfold stripDockerfileFirewall
      simpa [hcount] using hpos
    exact ⟨sectionChangeMsg, List.count_pos_iff.mp hc⟩
  show (let out := stripDockerfileFirewall lines;
    if out.2.isEmpty = true then lines else out.1) = specSectionFilter false lines
  simp only [hne, Bool.false_eq_true, if_false]
  simpa using hout

/-- Witness for `c4_section_removal_amended`: a concrete build script
with a marker, a section body, the sentinel, and clean surrounding
lines. -/
theorem c4_section_removal_amended_witness :
    dockerResultLines
        ["FROM node", "# Copy and set up firewall script", "COPY init",
          "USER node", "ENV A"] = ["FROM node", "ENV A"] := by
  have h := c4_section_removal_amended
    ["FROM node", "# Copy and set up firewall script", "COPY init",
      "USER node", "ENV A"] (by decide) (by decide)
  rw [h]
  decide

/-! ## Structured manifest (`strip_devcontainer_json_firewall`)

The manifest is modelled as an already-parsed JSON value (parsing by
`serde_json` is outside the model; a parse failure is an error before
any transformation runs).  Objects are association lists; `serde_json`
maps have unique keys, which lookup-as-first-match and remove-all model
faithfully. -/

inductive Json where
  | null
  | bool (b : Bool)
  | num (n : Int)
  | str (s : String)
  | arr (xs : List Json)
  | obj (fields : List (String × Json))

/-- First-match field lookup (`serde_json::Value::get`). -/
def lookupField : List (String × Json) → String → Option Json
  | [], _ => none
  | e :: rest, key => if e.1 = key then some e.2 else lookupField rest key

def Json.lookup : Json → String → Option Json
  | .obj fs, key => lookupField fs key
  | _, _ => none

/-- In-place mutation of the value of one field (`get_mut` + mutation). -/
def Json.mapField (key : String) (f : Json → Json) : Json → Json
  | .obj fs => .obj (fs.map (fun e => if e.1 = key then (e.1, f e.2) else e))
  | j => j

/-- Field removal (`as_object_mut().unwrap().remove(key)`). -/
def Json.removeField : Json → String → Json
  | .obj fs, key => .obj (fs.filter (fun e => e.1 != key))
  | j, _ => j

/-- The `retain` predicate on `runArgs` entries: keep everything except
string entries containing one of the two capability markers. -/
def keepArg : Json → Bool
  | .str s => !(strContains s "--cap-add=NET_ADMIN" || strContains s "--cap-add=NET_RAW")
  | _ => true

def capMsg : String := "Removed NET_ADMIN and NET_RAW capabilities from runArgs"

def postMsg : String := "Removed postStartCommand referencing firewall"

def waitMsg : String := "Removed waitFor since postStartCommand was removed"

/-- First step: drop capability entries from `runArgs`, recording a
change only if the array shrank. -/
def stripRunArgs (j : Json) : Json × List String :=
  match j.lookup "runArgs" with
  | some (.arr xs) =>
    let kept := xs.filter keepArg
    (Json.mapField "runArgs" (fun _ => .arr kept) j,
      if kept.length < xs.length then [capMsg] else [])
  | _ => (j, [])

/-- Second step: remove `postStartCommand` if its string value mentions
`firewall`. -/
def stripPostStart (j : Json) : Json × List String :=
  match j.lookup "postStartCommand" with
  | some (.str s) =>
    if strContains s "firewall" then (j.removeField "postStartCommand", [postMsg])
    else (j, [])
  | _ => (j, [])

/-- Third step: remove `waitFor` if it exactly equals
`postStartCommand` while that field is (now) absent. -/
def stripWaitFor (j : Json) : Json × List String :=
  match j.lookup "waitFor" with
  | some (.str s) =>
    if s == "postStartCommand" && (j.lookup "postStartCommand").isNone then
      (j.removeField "waitFor", [waitMsg])
    else (j, [])
  | _ => (j, [])

/-- Model of `strip_devcontainer_json_firewall`: the three steps in the order of
the Rust code, accumulating the change list. -/
def stripDevcontainerJsonFirewall (j : Json) : Json × List String :=
  let r1 := stripRunArgs j
  let r2 := stripPostStart r1.1
  let r3 := stripWaitFor r2.1
  (r3.1, r1.2 ++ r2.2 ++ r3.2)

/-- The manifest value on disk after the call: rewritten iff at least
one change was recorded. -/
def jsonFileResult (j : Json) : Json :=
  if (stripDevcontainerJsonFirewall j).2.isEmpty then j
  else (stripDevcontainerJsonFirewall j).1

/-! ### Field-lookup lemmas -/

lemma lookup_mapField_self (j : Json) (key : String) (f : Json → Json) :
    (Json.mapField key f j).lookup key = (j.lookup key).map f := by
  cases j <;> simp [Json.mapField, Json.lookup]
  case obj fs =>
    induction fs with
    | nil => simp [lookupField]
    | cons e rest ih =>
      by_cases hk : e.1 = key
      · simp [lookupField, hk]
      · simp [lookupField, hk, ih]

lemma lookup_mapField_other (j : Json) (key k : String) (f : Json → Json)
    (h : k ≠ key) :
    (Json.mapField key f j).lookup k = j.lookup k := by
  have hkey : ¬(key = k) := fun hc => h hc.symm
  have hkk : ¬(k = key) := h
  cases j <;> simp [Json.mapField, Json.lookup]
  case obj fs =>
    induction fs with
    | nil => simp [lookupField]
    | cons e rest ih =>
      by_cases hk : e.1 = key
      · have hne : ¬(e.1 = k) := by rw [hk]; exact hkey
        simp [lookupField, hk, hne, hkey, ih]
      · by_cases hk2 : e.1 = k
        · simp [lookupField, hk, hk2, hkk]
        · simp [lookupField, hk, hk2, ih]

lemma lookup_removeField_self (j : Json) (key : String) :
    (j.removeField key).lookup key = none := by
  cases j <;> simp [Json.removeField, Json.lookup]
  case obj fs =>
    induction fs with
    | nil => simp [lookupField]
    | cons e rest ih =>
      by_cases hk : e.1 = key
      · simp [List.filter_cons, hk, ih]
      · simp [List.filter_cons, lookupField, hk, ih]

lemma lookup_removeField_other (j : Json) (key k : String) (h : k ≠ key) :
    (j.removeField key).lookup k = j.lookup k := by
  have hkey : ¬(key = k) := fun hc => h hc.symm
  have hkk : ¬(k = key) := h
  cases j <;> simp [Json.removeField, Json.lookup]
  case obj fs =>
    induction fs with
    | nil => simp [lookupField]
    | cons e rest ih =>
      by_cases hk : e.1 = key
      · have hne : ¬(e.1 = k) := by rw [hk]; exact hkey
        simp [List.filter_cons, lookupField, hk, hne, hkey, ih]
      · by_cases hk2 : e.1 = k
        · simp [List.filter_cons, lookupField, hk, hk2, hkk]
        · simp [List.filter_cons, lookupField, hk, hk2, ih]

/-! ### Per-step lookup preservation -/

lemma stripRunArgs_lookup_other (j : Json) (k : String) (h : k ≠ "runArgs") :
    (stripRunArgs j).1.lookup k = j.lookup k := by
  unfold stripRunArgs
  cases hj : j.lookup "runArgs" with
  | none => simp
  | some v => cases v <;> simp [lookup_mapField_other _ _ _ _ h]

lemma stripPostStart_lookup_other (j : Json) (k : String)
    (h : k ≠ "postStartCommand") :
    (stripPostStart j).1.lookup k = j.lookup k := by
  unfold stripPostStart
  cases hj : j.lookup "postStartCommand" with
  | none => simp
  | some v =>
    cases v <;> simp
    case str s =>
      by_cases hf : strContains s "firewall" = true
      · simp [hf, lookup_removeField_other _ _ _ h]
      · simp [Bool.not_eq_true] at hf
        simp [hf]

lemma stripWaitFor_lookup_other (j : Json) (k : String) (h : k ≠ "waitFor") :
    (stripWaitFor j).1.lookup k = j.lookup k := by
  unfold stripWaitFor
  cases hj : j.lookup "waitFor" with
  | none => simp
  | some v =>
    cases v <;> simp
    case str s =>
      cases hc : (s == "postStartCommand" && (j.lookup "postStartCommand").isNone)
      · simp [hc]
      · simp [hc, lookup_removeField_other _ _ _ h]

/-! ### Cleanliness predicates: a value on which the corresponding step
is a no-op.  Each step establishes its own predicate, and each predicate
transfers along lookup equalities; this yields idempotence. -/

def runArgsClean (j : Json) : Prop :=
  ∀ xs, j.lookup "runArgs" = some (.arr xs) → xs.filter keepArg = xs

def postClean (j : Json) : Prop :=
  ∀ s, j.lookup "postStartCommand" = some (.str s) →
    strContains s "firewall" = false

def waitClean (j : Json) : Prop :=
  ∀ s, j.lookup "waitFor" = some (.str s) →
    (s == "postStartCommand" && (j.lookup "postStartCommand").isNone) = false

lemma runArgsClean_of_eq {j j' : Json}
    (h : j'.lookup "runArgs" = j.lookup "runArgs") :
    runArgsClean j → runArgsClean j' := by
  intro hc xs hxs
  exact hc xs (h ▸ hxs)

lemma postClean_of_eq {j j' : Json}
    (h : j'.lookup "postStartCommand" = j.lookup "postStartCommand") :
    postClean j → postClean j' := by
  intro hc s hs
  exact hc s (h ▸ hs)

lemma waitClean_of_eq {j j' : Json}
    (hw : j'.lookup "waitFor" = j.lookup "waitFor")
    (hp : j'.lookup "postStartCommand" = j.lookup "postStartCommand") :
    waitClean j → waitClean j' := by
  intro hc s hs
  rw [hp]
  exact hc s (hw ▸ hs)

lemma stripRunArgs_establishes_clean (j : Json) :
    runArgsClean (stripRunArgs j).1 := by
  unfold stripRunArgs
  cases hj : j.lookup "runArgs" with
  | none => intro xs hxs; rw [hj] at hxs; cases hxs
  | some v =>
    cases v <;> simp <;>
      try (intro xs hxs; rw [hj] at hxs; simp at hxs)
    case arr ys =>
      intro xs hxs
      rw [lookup_mapField_self, hj] at hxs
      simp at hxs
      rw [← hxs]
      simp [List.filter_filter]

lemma stripRunArgs_noop_of_clean (j : Json) (h : runArgsClean j) :
    (stripRunArgs j).2 = [] := by
  unfold stripRunArgs
  cases hj : j.lookup "runArgs" with
  | none => simp
  | some v =>
    cases v <;> simp
    case arr xs =>
      rw [h xs hj]

lemma stripPostStart_establishes_clean (j : Json) :
    postClean (stripPostStart j).1 := by
  unfold stripPostStart
  cases hj : j.lookup "postStartCommand" with
  | none => intro s hs; rw [hj] at hs; cases hs
  | some v =>
    cases v <;> simp <;>
      try (intro s hs; rw [hj] at hs; simp at hs)
    case str t =>
      by_cases hf : strContains t "firewall" = true
      · simp [hf]
        intro s hs
        rw [lookup_removeField_self] at hs
        cases hs
      · simp [Bool.not_eq_true] at hf
        simp [hf]
        intro s hs
        rw [hj] at hs
        simp at hs
        rw [← hs]
        exact hf

lemma stripPostStart_noop_of_clean (j : Json) (h : postClean j) :
    stripPostStart j = (j, []) := by
  unfold stripPostStart
  cases hj : j.lookup "postStartCommand" with
  | none => simp
  | some v =>
    cases v <;> simp
    case str s => rw [h s hj]

lemma stripWaitFor_noop_of_clean (j : Json) (h : waitClean j) :
    stripWaitFor j = (j, []) := by
  unfold stripWaitFor
  cases hj : j.lookup "waitFor" with
  | none => simp
  | some v =>
    cases v <;> simp
    case str s =>
      intro hs hnone
      have hb := h s hj
      rw [hs, hnone] at hb
      simp at hb

/-- The `waitFor` step leaves a value on which the step is a no-op, or
removes the field entirely. -/
lemma stripWaitFor_establishes_clean (j : Json) :
    waitClean (stripWaitFor j).1 := by
  unfold stripWaitFor
  cases hj : j.lookup "waitFor" with
  | none => intro s hs; rw [hj] at hs; cases hs
  | some v =>
    cases v <;> simp <;>
      try (intro s hs; rw [hj] at hs; simp at hs)
    case str t =>
      by_cases hc : (t == "postStartCommand" && (j.lookup "postStartCommand").isNone) = true
      · simp [hc]
        intro s hs
        rw [lookup_removeField_self] at hs
        cases hs
      · simp only [Bool.not_eq_true] at hc
        simp [hc]
        intro s hs
        rw [hj] at hs
        simp at hs
        rw [← hs]
        exact hc

/-- The value of `runArgs` after the first step: the filtered array. -/
lemma stripRunArgs_lookup_runArgs (j : Json) (xs : List Json)
    (h : j.lookup "runArgs" = some (Json.arr xs)) :
    (stripRunArgs j).1.lookup "runArgs" = some (Json.arr (xs.filter keepArg)) := by
  unfold stripRunArgs
  rw [h]
  simp [lookup_mapField_self, h]

/-- A second stripping pass reports zero further changes, for every
manifest: each of the three steps is a no-op on the output of the first
pass. -/
lemma stripJson_idem (j : Json) :
    (stripDevcontainerJsonFirewall (stripDevcontainerJsonFirewall j).1).2 = [] := by
  have hres : (stripDevcontainerJsonFirewall j).1
      = (stripWaitFor (stripPostStart (stripRunArgs j).1).1).1 := rfl
  rw [hres]
  set j1 := (stripRunArgs j).1 with hj1
  set j2 := (stripPostStart j1).1 with hj2
  set j3 := (stripWaitFor j2).1 with hj3
  have hra : runArgsClean j3 := by
    have h1 : runArgsClean j1 := stripRunArgs_establishes_clean j
    have e2 : j2.lookup "runArgs" = j1.lookup "runArgs" :=
      stripPostStart_lookup_other j1 _ (by decide)
    have e3 : j3.lookup "runArgs" = j2.lookup "runArgs" :=
      stripWaitFor_lookup_other j2 _ (by decide)
    exact runArgsClean_of_eq (by rw [e3, e2]) h1
  have hpc : postClean j3 := by
    have h2 : postClean j2 := stripPostStart_establishes_clean j1
    have e3 : j3.lookup "postStartCommand" = j2.lookup "postStartCommand" :=
      stripWaitFor_lookup_other j2 _ (by decide)
    exact postClean_of_eq e3 h2
  have hwc : waitClean j3 := stripWaitFor_establishes_clean j2
  have hr1 : (stripRunArgs j3).2 = [] := stripRunArgs_noop_of_clean j3 hra
  have e1p : (stripRunArgs j3).1.lookup "postStartCommand"
      = j3.lookup "postStartCommand" := stripRunArgs_lookup_other j3 _ (by decide)
  have e1w : (stripRunArgs j3).1.lookup "waitFor" = j3.lookup "waitFor" :=
    stripRunArgs_lookup_other j3 _ (by decide)
  have hr2 : stripPostStart (stripRunArgs j3).1 = ((stripRunArgs j3).1, []) :=
    stripPostStart_noop_of_clean _ (postClean_of_eq e1p hpc)
  have hr3 : stripWaitFor (stripRunArgs j3).1 = ((stripRunArgs j3).1, []) :=
    stripWaitFor_noop_of_clean _ (waitClean_of_eq e1w e1p hwc)
  simp [stripDevcontainerJsonFirewall, hr1, hr2, hr3]

/-! ## Claims C5 and C10 (manifest transformation) -/

/-- C5, counterexample: the claim states that one pass leaves all
entries and fields other than the capability entries of `runArgs`
unchanged in value, but on a manifest that also carries a
firewall-referencing `postStartCommand` the same pass removes that
field too. -/
theorem c5_other_fields_counterexample :
    (stripDevcontainerJsonFirewall (Json.obj
        [("runArgs", Json.arr [Json.str "--cap-add=NET_ADMIN", Json.str "--privileged"]),
          ("postStartCommand", Json.str "run firewall now")])).1.lookup
        "postStartCommand" = none ∧
      (Json.obj
        [("runArgs", Json.arr [Json.str "--cap-add=NET_ADMIN", Json.str "--privileged"]),
          ("postStartCommand", Json.str "run firewall now")]).lookup
        "postStartCommand" = some (Json.str "run firewall now") ∧
      (some (Json.str "run firewall now") : Option Json) ≠ none := by
  refine ⟨rfl, rfl, ?_⟩
  simp

/-- C5 (amended): for every manifest whose `runArgs` array contains a
capability-marker entry, one pass removes exactly those entries (the
array becomes its `keepArg` filtering, other entries kept in order),
records the capability change, leaves every field other than `runArgs`,
`postStartCommand` and `waitFor` unchanged in value (a
firewall-referencing `postStartCommand` and a dangling `waitFor` may
also be removed by the same pass), and a second pass reports zero
further changes. -/
theorem c5_manifest_strip_amended (j : Json) (xs : List Json)
    (hargs : j.lookup "runArgs" = some (Json.arr xs))
    (hmark : ∃ x ∈ xs, keepArg x = false) :
    (stripDevcontainerJsonFirewall j).1.lookup "runArgs"
        = some (Json.arr (xs.filter keepArg)) ∧
      capMsg ∈ (stripDevcontainerJsonFirewall j).2 ∧
      (∀ k, k ≠ "runArgs" → k ≠ "postStartCommand" → k ≠ "waitFor" →
        (stripDevcontainerJsonFirewall j).1.lookup k = j.lookup k) ∧
      (stripDevcontainerJsonFirewall (stripDevcontainerJsonFirewall j).1).2 = [] := by
  have hres : (stripDevcontainerJsonFirewall j).1
      = (stripWaitFor (stripPostStart (stripRunArgs j).1).1).1 := rfl
  have hlen : (xs.filter keepArg).length < xs.length := by
    rw [List.length_filter_lt_length_iff_exists]
    obtain ⟨x, hx, hkx⟩ := hmark
    exact ⟨x, hx, by simp [hkx]⟩
  have hc1 : (stripRunArgs j).2 = [capMsg] := by
    unfold stripRunArgs
    rw [hargs]
    simp [hlen]
  refine ⟨?_, ?_, ?_, stripJson_idem j⟩
  · rw [hres, stripWaitFor_lookup_other _ _ (by decide),
      stripPostStart_lookup_other _ _ (by decide)]
    exact stripRunArgs_lookup_runArgs j xs hargs
  · simp [stripDevcontainerJsonFirewall, hc1]
  · intro k h1 h2 h3
    rw [hres, stripWaitFor_lookup_other _ _ h3, stripPostStart_lookup_other _ _ h2,
      stripRunArgs_lookup_other _ _ h1]

/-- Witness for `c5_manifest_strip_amended`: a concrete manifest with a
marker entry, a clean entry, and an unrelated field. -/
theorem c5_manifest_strip_amended_witness :
    (stripDevcontainerJsonFirewall (Json.obj
        [("name", Json.str "Test"),
          ("runArgs", Json.arr [Json.str "--cap-add=NET_ADMIN", Json.str "--privileged"])])).1.lookup
        "runArgs" = some (Json.arr [Json.str "--privileged"]) ∧
      (stripDevcontainerJsonFirewall (Json.obj
        [("name", Json.str "Test"),
          ("runArgs", Json.arr [Json.str "--cap-add=NET_ADMIN", Json.str "--privileged"])])).1.lookup
        "name" = some (Json.str "Test") ∧
      (stripDevcontainerJsonFirewall (stripDevcontainerJsonFirewall (Json.obj
        [("name", Json.str "Test"),
          ("runArgs", Json.arr
            [Json.str "--cap-add=NET_ADMIN", Json.str "--privileged"])])).1).2 = [] := by
  have h := c5_manifest_strip_amended
    (Json.obj [("name", Json.str "Test"),
      ("runArgs", Json.arr [Json.str "--cap-add=NET_ADMIN", Json.str "--privileged"])])
    [Json.str "--cap-add=NET_ADMIN", Json.str "--privileged"]
    rfl ⟨Json.str "--cap-add=NET_ADMIN", by simp, by decide⟩
  have hf : ([Json.str "--cap-add=NET_ADMIN", Json.str "--privileged"].filter keepArg)
      = [Json.str "--privileged"] := rfl
  refine ⟨?_, ?_, h.2.2.2⟩
  · rw [h.1, hf]
  · rw [h.2.2.1 "name" (by decide) (by decide) (by decide)]
    rfl

/-- C10: for every manifest whose `waitFor` field is exactly the string
`postStartCommand` while no `postStartCommand` field is present, the
pass removes `waitFor`, records the corresponding change, and the
non-empty change list makes the file be rewritten. -/
theorem c10_dangling_waitfor_removed (j : Json)
    (hw : j.lookup "waitFor" = some (Json.str "postStartCommand"))
    (hp : j.lookup "postStartCommand" = none) :
    (stripDevcontainerJsonFirewall j).1.lookup "waitFor" = none ∧
      waitMsg ∈ (stripDevcontainerJsonFirewall j).2 ∧
      (stripDevcontainerJsonFirewall j).2 ≠ [] := by
  have e1w : (stripRunArgs j).1.lookup "waitFor" = j.lookup "waitFor" :=
    stripRunArgs_lookup_other j _ (by decide)
  have e1p : (stripRunArgs j).1.lookup "postStartCommand"
      = j.lookup "postStartCommand" := stripRunArgs_lookup_other j _ (by decide)
  have hw1 : (stripRunArgs j).1.lookup "waitFor"
      = some (Json.str "postStartCommand") := by rw [e1w, hw]
  have hp1 : (stripRunArgs j).1.lookup "postStartCommand" = none := by
    rw [e1p, hp]
  have h2 : stripPostStart (stripRunArgs j).1 = ((stripRunArgs j).1, []) := by
    unfold stripPostStart
    rw [hp1]
  have h3 : stripWaitFor (stripRunArgs j).1
      = ((stripRunArgs j).1.removeField "waitFor", [waitMsg]) := by
    unfold stripWaitFor
    rw [hw1]
    simp [hp1]
  have hmem : waitMsg ∈ (stripDevcontainerJsonFirewall j).2 := by
    simp [stripDevcontainerJsonFirewall, h2, h3]
  refine ⟨?_, hmem, ?_⟩
  · show (stripWaitFor (stripPostStart (stripRunArgs j).1).1).1.lookup "waitFor" = none
    simp [h2, h3, lookup_removeField_self]
  · intro h0
    rw [h0] at hmem
    exact List.not_mem_nil _ hmem

/-- Witness for `c10_dangling_waitfor_removed`: a manifest whose only
field is the dangling `waitFor`, with no firewall content at all. -/
theorem c10_dangling_waitfor_removed_witness :
    (stripDevcontainerJsonFirewall
        (Json.obj [("waitFor", Json.str "postStartCommand")])).1.lookup
        "waitFor" = none ∧
      waitMsg ∈ (stripDevcontainerJsonFirewall
        (Json.obj [("waitFor", Json.str "postStartCommand")])).2 := by
  have h := c10_dangling_waitfor_removed
    (Json.obj [("waitFor", Json.str "postStartCommand")]) rfl rfl
  exact ⟨h.1, h.2.1⟩

/-! ## Whole stripping pass (`strip_firewall_features`)

The `.devcontainer` directory is modelled by its `.sh` files (name and
content), the parsed manifest (when the file exists) and the Dockerfile
lines (when the file exists).  File I/O errors are outside the model;
on a readable directory the Rust pass can only fail on a JSON parse
error, which the parsed-manifest model excludes, so the model returns
the result directly. -/

/-- The eleven regex patterns of `create_firewall_patterns`, as a single
match test.  The first seven patterns reduce to plain substring search
(`\s*` and `\\?` both match the empty string, and `init-firewall\.sh`
is literal up to the escaped dot); the three `.*` patterns match within
one line, since the Rust regex `.` does not cross newlines. -/
def matchesFirewallPatterns (content : String) : Bool :=
  strContains content "iptables" || strContains content "ipset"
    || strContains content "iproute2" || strContains content "dnsutils"
    || strContains content "aggregate"
    || strContains content "--cap-add=NET_ADMIN"
    || strContains content "--cap-add=NET_RAW"
    || strContains content "init-firewall.sh"
    || strSeqMatch content "firewall" ".sh"
    || strSeqMatch content "postStartCommand" "firewall"
    || strSeqMatch content "waitFor" "postStartCommand"

/-- The three canonical firewall script names. -/
def canonicalScriptNames : List String :=
  ["init-firewall.sh", "firewall.sh", "iptables.sh"]

/-- Model of `detect_firewall_scripts`: canonical names that exist, then any
other `.sh` file whose content matches a firewall pattern. -/
def detectFirewallScripts (files : List (String × String)) : List String :=
  let named := canonicalScriptNames.filter (fun n => files.any (fun f => f.1 == n))
  named ++
    (files.filter
      (fun f => !(named.contains f.1) && matchesFirewallPatterns f.2)).map
      (fun f => f.1)

/-- The `FirewallRemovalResult` record (customizer.rs 31-38), with files named by
their file name. -/
structure FirewallRemovalResult where
  files_modified : List String
  files_removed : List String
  dockerfile_changes : List String
  json_changes : List String
  warnings : List String
  patterns_not_found : List String
deriving DecidableEq

def FirewallRemovalResult.has_changes (r : FirewallRemovalResult) : Bool :=
  !r.files_modified.isEmpty || !r.files_removed.isEmpty

def FirewallRemovalResult.has_warnings (r : FirewallRemovalResult) : Bool :=
  !r.warnings.isEmpty || !r.patterns_not_found.isEmpty

/-- The modelled `.devcontainer` directory. -/
structure DevDir where
  shFiles : List (String × String)
  json : Option Json
  dockerfile : Option (List String)

/-- Model of `validate_firewall_removal`: purely informational warnings, one per
empty result component. -/
def validateFirewallRemoval (r : FirewallRemovalResult) : List String :=
  (if r.files_removed.isEmpty then ["No firewall scripts were found to remove"]
    else []) ++
  (if r.dockerfile_changes.isEmpty
    then ["No firewall configurations found in Dockerfile"] else []) ++
  (if r.json_changes.isEmpty
    then ["No firewall configurations found in devcontainer.json"] else [])

/-- Model of `strip_firewall_features`: remove detected scripts, transform the
manifest and the Dockerfile when present (warn when absent), then append
the validation warnings. -/
def stripFirewallFeatures (d : DevDir) : FirewallRemovalResult :=
  let scripts := detectFirewallScripts d.shFiles
  let jsonChanges := match d.json with
    | some j => (stripDevcontainerJsonFirewall j).2
    | none => []
  let dockerChanges := match d.dockerfile with
    | some lines => (stripDockerfileFirewall lines).2
    | none => []
  let base : FirewallRemovalResult :=
    { files_modified :=
        (if d.json.isSome && !jsonChanges.isEmpty then ["devcontainer.json"]
          else []) ++
        (if d.dockerfile.isSome && !dockerChanges.isEmpty then ["Dockerfile"]
          else [])
      files_removed := scripts
      dockerfile_changes := dockerChanges
      json_changes := jsonChanges
      warnings :=
        (if d.json.isSome then [] else ["devcontainer.json not found"]) ++
        (if d.dockerfile.isSome then [] else ["Dockerfile not found"])
      patterns_not_found := [] }
  { base with warnings := base.warnings ++ validateFirewallRemoval base }

/-! ### No-op lemmas for a token-free directory -/

/-- A manifest without firewall tokens: no capability-marker entry in a
`runArgs` array, no firewall-referencing `postStartCommand`, and no
dangling `waitFor` (`waitFor.*postStartCommand` is itself one of the
firewall patterns). -/
def manifestNoFirewall (j : Json) : Bool :=
  (match j.lookup "runArgs" with
    | some (.arr xs) => xs.all keepArg
    | _ => true) &&
  (match j.lookup "postStartCommand" with
    | some (.str s) => !(strContains s "firewall")
    | _ => true) &&
  (match j.lookup "waitFor" with
    | some (.str s) =>
      !(s == "postStartCommand" && (j.lookup "postStartCommand").isNone)
    | _ => true)

lemma manifestNoFirewall_clean (j : Json) (h : manifestNoFirewall j = true) :
    runArgsClean j ∧ postClean j ∧ waitClean j := by
  rw [manifestNoFirewall, Bool.and_eq_true, Bool.and_eq_true] at h
  obtain ⟨⟨h1, h2⟩, h3⟩ := h
  refine ⟨?_, ?_, ?_⟩
  · intro xs hxs
    rw [hxs] at h1
    simp at h1
    exact List.filter_eq_self.mpr h1
  · intro s hs
    rw [hs] at h2
    simpa using h2
  · intro s hs
    rw [hs] at h3
    have h3b :
        (!(s == "postStartCommand" && (j.lookup "postStartCommand").isNone))
          = true := h3
    cases hb : (s == "postStartCommand" && (j.lookup "postStartCommand").isNone)
    · rfl
    · rw [hb] at h3b
      cases h3b

lemma stripJson_noop_of_noFirewall (j : Json)
    (h : manifestNoFirewall j = true) :
    (stripDevcontainerJsonFirewall j).2 = [] := by
  obtain ⟨hra, hpc, hwc⟩ := manifestNoFirewall_clean j h
  have h1 : (stripRunArgs j).2 = [] := stripRunArgs_noop_of_clean j hra
  have e1p : (stripRunArgs j).1.lookup "postStartCommand"
      = j.lookup "postStartCommand" := stripRunArgs_lookup_other j _ (by decide)
  have e1w : (stripRunArgs j).1.lookup "waitFor" = j.lookup "waitFor" :=
    stripRunArgs_lookup_other j _ (by decide)
  have h2 : stripPostStart (stripRunArgs j).1 = ((stripRunArgs j).1, []) :=
    stripPostStart_noop_of_clean _ (postClean_of_eq e1p hpc)
  have h3 : stripWaitFor (stripRunArgs j).1 = ((stripRunArgs j).1, []) :=
    stripWaitFor_noop_of_clean _ (waitClean_of_eq e1w e1p hwc)
  simp [stripDevcontainerJsonFirewall, h1, h2, h3]

lemma dockerLoop_changes_nil :
    ∀ (ls : List String) (fw apt : Bool) (ch : List String),
      (∀ l ∈ ls, isMarkerLine l = false ∧ noPkgSub l = true) →
      (dockerLoop ls fw apt ch).2 = ch := by
  intro ls
  induction ls with
  | nil => intro fw apt ch _; simp [dockerLoop]
  | cons l ls ih =>
    intro fw apt ch h
    have hm := (h l (by simp)).1
    have hpk := (h l (by simp)).2
    have ht : ∀ x ∈ ls, isMarkerLine x = false ∧ noPkgSub x = true :=
      fun x hx => h x (by simp [hx])
    cases ha : (apt || isInstallLine l) <;>
      simp [dockerLoop, hm, ha, stripPkgs_eq_of_noPkg hpk, ih _ _ _ ht]

lemma stripDockerfile_changes_nil (ls : List String)
    (h : ls.all (fun l => !(isMarkerLine l) && noPkgSub l) = true) :
    (stripDockerfileFirewall ls).2 = [] := by
  apply dockerLoop_changes_nil
  intro l hl
  have hb := (List.all_eq_true.mp h) l hl
  rw [Bool.and_eq_true] at hb
  exact ⟨by simpa using hb.1, hb.2⟩

lemma detectFirewallScripts_nil (files : List (String × String))
    (h : files.all
      (fun f => !(canonicalScriptNames.contains f.1)
        && !(matchesFirewallPatterns f.2)) = true) :
    detectFirewallScripts files = [] := by
  have hcont : ∀ f ∈ files, canonicalScriptNames.contains f.1 = false := by
    intro f hf
    have hb := (List.all_eq_true.mp h) f hf
    rw [Bool.and_eq_true] at hb
    simpa using hb.1
  have hmatch : ∀ f ∈ files, matchesFirewallPatterns f.2 = false := by
    intro f hf
    have hb := (List.all_eq_true.mp h) f hf
    rw [Bool.and_eq_true] at hb
    simpa using hb.2
  have hnamed :
      canonicalScriptNames.filter (fun n => files.any (fun f => f.1 == n)) = [] := by
    rw [List.filter_eq_nil_iff]
    intro n hn hany
    obtain ⟨f, hf, hfe⟩ := List.any_eq_true.mp hany
    have hfn : f.1 = n := by simpa using hfe
    have hc := hcont f hf
    rw [hfn] at hc
    have hmem := List.elem_eq_true_of_mem hn
    rw [show canonicalScriptNames.contains n
        = List.elem n canonicalScriptNames from rfl, hmem] at hc
    cases hc
  have hfilter :
      files.filter
        (fun f => !(([] : List String).contains f.1)
          && matchesFirewallPatterns f.2) = [] := by
    rw [List.filter_eq_nil_iff]
    intro f hf
    simp [hmatch f hf]
  simp only [detectFirewallScripts]
  rw [hnamed, hfilter]
  simp

/-! ## Claims C7 and C9 (whole stripping pass) -/

/-- C9: no code path of the stripping pass populates
`patterns_not_found`, so on its results `has_warnings()` holds exactly
when the warning list is non-empty. -/
theorem c9_patterns_not_found_invariant (d : DevDir) :
    (stripFirewallFeatures d).patterns_not_found = [] ∧
      ((stripFirewallFeatures d).has_warnings = true ↔
        (stripFirewallFeatures d).warnings ≠ []) := by
  have hp : (stripFirewallFeatures d).patterns_not_found = [] := rfl
  refine ⟨hp, ?_⟩
  rw [FirewallRemovalResult.has_warnings, hp]
  cases hw : (stripFirewallFeatures d).warnings with
  | nil => simp
  | cons a l => simp

/-- C7: on a directory whose manifest and build script exist but carry
no firewall tokens, and with no firewall scripts present, the stripping
pass reports zero files modified, zero files removed, and exactly the
three informational warnings, in the order the code emits them. -/
theorem c7_no_tokens_three_warnings (d : DevDir) (j : Json) (dls : List String)
    (hjson : d.json = some j)
    (hdocker : d.dockerfile = some dls)
    (hjclean : manifestNoFirewall j = true)
    (hdclean : dls.all (fun l => !(isMarkerLine l) && noPkgSub l) = true)
    (hscripts : d.shFiles.all
      (fun f => !(canonicalScriptNames.contains f.1)
        && !(matchesFirewallPatterns f.2)) = true) :
    (stripFirewallFeatures d).files_modified = [] ∧
      (stripFirewallFeatures d).files_removed = [] ∧
      (stripFirewallFeatures d).warnings =
        ["No firewall scripts were found to remove",
          "No firewall configurations found in Dockerfile",
          "No firewall configurations found in devcontainer.json"] := by
  have hs := detectFirewallScripts_nil d.shFiles hscripts
  have hj := stripJson_noop_of_noFirewall j hjclean
  have hd := stripDockerfile_changes_nil dls hdclean
  refine ⟨?_, ?_, ?_⟩ <;>
    simp [stripFirewallFeatures, hjson, hdocker, hj, hd, hs,
      validateFirewallRemoval]

/-- Witness for `c7_no_tokens_three_warnings`: one clean shell script,
a clean manifest, and a clean Dockerfile. -/
theorem c7_no_tokens_three_warnings_witness :
    (stripFirewallFeatures
        ⟨[("setup.sh", "echo hello")], some (Json.obj [("name", Json.str "Clean")]),
          some ["FROM node", "RUN apt-get install -y git vim"]⟩).files_modified
        = [] ∧
      (stripFirewallFeatures
        ⟨[("setup.sh", "echo hello")], some (Json.obj [("name", Json.str "Clean")]),
          some ["FROM node", "RUN apt-get install -y git vim"]⟩).files_removed
        = [] ∧
      (stripFirewallFeatures
        ⟨[("setup.sh", "echo hello")], some (Json.obj [("name", Json.str "Clean")]),
          some ["FROM node", "RUN apt-get install -y git vim"]⟩).warnings =
        ["No firewall scripts were found to remove",
          "No firewall configurations found in Dockerfile",
          "No firewall configurations found in devcontainer.json"] :=
  c7_no_tokens_three_warnings
    ⟨[("setup.sh", "echo hello")], some (Json.obj [("name", Json.str "Clean")]),
      some ["FROM node", "RUN apt-get install -y git vim"]⟩
    (Json.obj [("name", Json.str "Clean")])
    ["FROM node", "RUN apt-get install -y git vim"]
    rfl rfl (by decide) (by decide) (by decide)

/-! ## Workflow orchestration (`CliApp::init`, `CliApp::update`)

The workflows sequence external git/filesystem operations.  Each
outcome of each operation is an oracle parameter (`Option CliError`, `none`
for success); the model returns the list of operations attempted, in
order, together with the overall outcome (`none` for a successful
workflow).  An operation is in the trace exactly when the corresponding
call is reached in the Rust code. -/

/-- The four-category error taxonomy (`error.rs`). -/
inductive CliError where
  | repository (message suggestion : String)
  | network (message suggestion : String)
  | gitOperation (message suggestion : String)
  | fileSystem (message suggestion : String)
deriving DecidableEq

/-- Outcome of `strip_firewall_features` as seen by a workflow. -/
inductive StripOutcome where
  | ok (r : FirewallRemovalResult)
  | err (e : CliError)
deriving DecidableEq

/-- The repository-mutating operations the workflows attempt. -/
inductive GitAction where
  | addRemote (name url : String)
  | fetchRemote (name : String)
  | forceCreateBranch (name source : String)
  | checkoutBranch (name : String)
  | splitSubtree (dir branch : String)
  | addSubtree (dir branch : String) (squash : Bool)
  | resetHard (ref : String)
  | subtreeMerge (dir branch : String)
  | createBackup
  | commitCustomizations
deriving DecidableEq

/- Constants from `config.rs`. -/

def claudeRemoteName : String := "claude"

def claudeRepoUrl : String := "https://github.com/anthropics/claude-code.git"

def claudeBranchName : String := "claude-main"

def claudeRemoteBranch : String := "claude/main"

def devcontainerBranch : String := "devcontainer"

def devcontainerUpdatedBranch : String := "devcontainer-updated"

def devcontainerDirName : String := ".devcontainer"

def masterBranch : String := "master"

/-- The confirmation check: `input.trim().to_lowercase()` equal to `y`
or `yes`. -/
def affirmative (s : String) : Bool :=
  let t := lowerStr (trimStr s)
  t == "y" || t == "yes"

/-- The cancellation error raised on a non-affirmative answer
(`cli/mod.rs` 60-65): Repository category. -/
def cancellationError : CliError :=
  CliError.repository "Operation cancelled by user"
    "Use --force flag to skip confirmation or backup existing files first"

/-- Oracle outcomes for the external steps of the Initialize workflow. -/
structure InitEnv where
  validateRepoRes : Option CliError
  validateCommitsRes : Option CliError
  dirExists : Bool
  answer : String
  addRemoteRes : Option CliError
  fetchRemoteRes : Option CliError
  forceCreateRes : Option CliError
  checkoutTrackingRes : Option CliError
  splitRes : Option CliError
  checkoutMasterRes : Option CliError
  addSubtreeRes : Option CliError
  stripOutcome : StripOutcome
deriving DecidableEq

/-- Model of `CliApp::init`: validations, the overwrite confirmation, the fixed
git sequence, and the optional customization whose own error (and whose
commit error) is swallowed. -/
def initModel (strip : Bool) (env : InitEnv) : List GitAction × Option CliError :=
  match env.validateRepoRes with
  | some e => ([], some e)
  | none =>
  match env.validateCommitsRes with
  | some e => ([], some e)
  | none =>
  if env.dirExists && !(affirmative env.answer) then ([], some cancellationError)
  else
    let a1 := [GitAction.addRemote claudeRemoteName claudeRepoUrl]
    match env.addRemoteRes with
    | some e => (a1, some e)
    | none =>
    let a2 := a1 ++ [GitAction.fetchRemote claudeRemoteName]
    match env.fetchRemoteRes with
    | some e => (a2, some e)
    | none =>
    let a3 := a2 ++ [GitAction.forceCreateBranch claudeBranchName claudeRemoteBranch]
    match env.forceCreateRes with
    | some e => (a3, some e)
    | none =>
    let a4 := a3 ++ [GitAction.checkoutBranch claudeBranchName]
    match env.checkoutTrackingRes with
    | some e => (a4, some e)
    | none =>
    let a5 := a4 ++ [GitAction.splitSubtree devcontainerDirName devcontainerBranch]
    match env.splitRes with
    | some e => (a5, some e)
    | none =>
    let a6 := a5 ++ [GitAction.checkoutBranch masterBranch]
    match env.checkoutMasterRes with
    | some e => (a6, some e)
    | none =>
    let a7 := a6 ++ [GitAction.addSubtree devcontainerDirName devcontainerBranch true]
    match env.addSubtreeRes with
    | some e => (a7, some e)
    | none =>
    if strip then
      match env.stripOutcome with
      | .err _ => (a7, none)
      | .ok r =>
        if r.has_changes then (a7 ++ [GitAction.commitCustomizations], none)
        else (a7, none)
    else (a7, none)

/-- Oracle outcomes for the external steps of the Update workflow. -/
structure UpdateEnv where
  validateRepoRes : Option CliError
  backupRes : Option CliError
  fetchRemoteRes : Option CliError
  checkoutTrackingRes : Option CliError
  resetRes : Option CliError
  splitRes : Option CliError
  checkoutMasterRes : Option CliError
  mergeRes : Option CliError
  stripOutcome : StripOutcome
deriving DecidableEq

/-- The Update workflow after the backup step: fetch, tracking-branch
reset, split, checkout, squashed subtree merge, optional customization
(swallowed on error). -/
def updateRest (strip : Bool) (env : UpdateEnv) (acc : List GitAction) :
    List GitAction × Option CliError :=
  let a1 := acc ++ [GitAction.fetchRemote claudeRemoteName]
  match env.fetchRemoteRes with
  | some e => (a1, some e)
  | none =>
  let a2 := a1 ++ [GitAction.checkoutBranch claudeBranchName]
  match env.checkoutTrackingRes with
  | some e => (a2, some e)
  | none =>
  let a3 := a2 ++ [GitAction.resetHard claudeRemoteBranch]
  match env.resetRes with
  | some e => (a3, some e)
  | none =>
  let a4 := a3 ++ [GitAction.splitSubtree devcontainerDirName devcontainerUpdatedBranch]
  match env.splitRes with
  | some e => (a4, some e)
  | none =>
  let a5 := a4 ++ [GitAction.checkoutBranch masterBranch]
  match env.checkoutMasterRes with
  | some e => (a5, some e)
  | none =>
  let a6 := a5 ++ [GitAction.subtreeMerge devcontainerDirName devcontainerUpdatedBranch]
  match env.mergeRes with
  | some e => (a6, some e)
  | none =>
  if strip then
    match env.stripOutcome with
    | .err _ => (a6, none)
    | .ok r =>
      if r.has_changes then (a6 ++ [GitAction.commitCustomizations], none)
      else (a6, none)
  else (a6, none)

/-- Model of `CliApp::update`: validation, the optional backup whose error
propagates through `?` (`self.create_backup()?`), then the rest. -/
def updateModel (backup strip : Bool) (env : UpdateEnv) :
    List GitAction × Option CliError :=
  match env.validateRepoRes with
  | some e => ([], some e)
  | none =>
  if backup then
    match env.backupRes with
    | some e => ([GitAction.createBackup], some e)
    | none => updateRest strip env [GitAction.createBackup]
  else updateRest strip env []

/-! ## Claims C1, C6, C8 (workflow orchestration) -/

/-- C1, counterexample: the claim states that a backup failure (for
example, the prefix directory being absent) is downgraded to a warning
and the Update workflow still reports success; in the code
`self.create_backup()?` propagates the error, so the workflow aborts
right after the backup attempt with a non-success outcome. -/
theorem c1_backup_failure_counterexample :
    (updateModel true false
        ⟨none,
          some (CliError.fileSystem "No .devcontainer directory found to backup"
            "Run \x27devcontainer-sync init\x27 first to create devcontainer configuration"),
          none, none, none, none, none, none,
          StripOutcome.ok ⟨[], [], [], [], [], []⟩⟩).2 =
        some (CliError.fileSystem "No .devcontainer directory found to backup"
          "Run \x27devcontainer-sync init\x27 first to create devcontainer configuration") ∧
      (updateModel true false
        ⟨none,
          some (CliError.fileSystem "No .devcontainer directory found to backup"
            "Run \x27devcontainer-sync init\x27 first to create devcontainer configuration"),
          none, none, none, none, none, none,
          StripOutcome.ok ⟨[], [], [], [], [], []⟩⟩).2 ≠ none := by
  refine ⟨rfl, ?_⟩
  simp [updateModel]

/-- C1 (amended): the backup step does not catch its own errors — a
backup failure propagates through `?` and aborts the Update workflow
with that error, nothing after the backup attempt running; only the
customization step is optional in the catch-and-warn sense, its failure
still letting the workflow succeed. -/
theorem c1_backup_aborts_amended (env env2 : UpdateEnv) (s b : Bool)
    (e e2 : CliError)
    (hv : env.validateRepoRes = none)
    (hb : env.backupRes = some e)
    (h1 : env2.validateRepoRes = none)
    (h2 : env2.backupRes = none)
    (h3 : env2.fetchRemoteRes = none)
    (h4 : env2.checkoutTrackingRes = none)
    (h5 : env2.resetRes = none)
    (h6 : env2.splitRes = none)
    (h7 : env2.checkoutMasterRes = none)
    (h8 : env2.mergeRes = none)
    (h9 : env2.stripOutcome = StripOutcome.err e2) :
    updateModel true s env = ([GitAction.createBackup], some e) ∧
      (updateModel b true env2).2 = none := by
  constructor
  · simp [updateModel, hv, hb]
  · cases b <;> simp [updateModel, updateRest, h1, h2, h3, h4, h5, h6, h7, h8, h9]

/-- Witness for `c1_backup_aborts_amended`: a concrete failing backup
and a concrete all-successful update whose customization fails. -/
theorem c1_backup_aborts_amended_witness :
    updateModel true false
        ⟨none, some (CliError.fileSystem "backup copy failed" "check permissions"),
          none, none, none, none, none, none,
          StripOutcome.ok ⟨[], [], [], [], [], []⟩⟩ =
      ([GitAction.createBackup],
        some (CliError.fileSystem "backup copy failed" "check permissions")) ∧
      (updateModel false true
        ⟨none, none, none, none, none, none, none, none,
          StripOutcome.err (CliError.fileSystem "read failed" "check permissions")⟩).2
        = none :=
  c1_backup_aborts_amended
    ⟨none, some (CliError.fileSystem "backup copy failed" "check permissions"),
      none, none, none, none, none, none,
      StripOutcome.ok ⟨[], [], [], [], [], []⟩⟩
    ⟨none, none, none, none, none, none, none, none,
      StripOutcome.err (CliError.fileSystem "read failed" "check permissions")⟩
    false false
    (CliError.fileSystem "backup copy failed" "check permissions")
    (CliError.fileSystem "read failed" "check permissions")
    rfl rfl rfl rfl rfl rfl rfl rfl rfl rfl rfl

/-- C8: with validations passing, an existing target directory and a
non-affirmative answer (normalized by trim and lowercase, anything other
than `y` or `yes`), Initialize stops with the Repository-category
cancellation error and an empty action trace — no remote added, no
branch created or checked out, no subtree or filesystem operation
attempted. -/
theorem c8_negative_confirmation_cancels (env : InitEnv) (s : Bool)
    (hv : env.validateRepoRes = none)
    (hc : env.validateCommitsRes = none)
    (hd : env.dirExists = true)
    (ha : affirmative env.answer = false) :
    initModel s env =
      ([], some (CliError.repository "Operation cancelled by user"
        "Use --force flag to skip confirmation or backup existing files first")) := by
  simp [initModel, hv, hc, hd, ha, cancellationError]

/-- Witness for `c8_negative_confirmation_cancels`: answer `n` with an
existing directory. -/
theorem c8_negative_confirmation_cancels_witness :
    initModel true
        ⟨none, none, true, "n", none, none, none, none, none, none, none,
          StripOutcome.ok ⟨[], [], [], [], [], []⟩⟩ =
      ([], some (CliError.repository "Operation cancelled by user"
        "Use --force flag to skip confirmation or backup existing files first")) :=
  c8_negative_confirmation_cancels
    ⟨none, none, true, "n", none, none, none, none, none, none, none,
      StripOutcome.ok ⟨[], [], [], [], [], []⟩⟩
    true rfl rfl rfl (by decide)

/-- C6: in both workflows, when the customization pass runs and returns
a result, the commit of customizations is attempted iff `has_changes()`
is true, and `has_changes()` holds exactly when `files_modified` or
`files_removed` is non-empty — empty changesets are never committed. -/
theorem c6_commit_iff_changes (env : InitEnv) (uenv : UpdateEnv) (b : Bool)
    (r : FirewallRemovalResult)
    (h1 : env.validateRepoRes = none) (h2 : env.validateCommitsRes = none)
    (h3 : (env.dirExists && !(affirmative env.answer)) = false)
    (h4 : env.addRemoteRes = none) (h5 : env.fetchRemoteRes = none)
    (h6 : env.forceCreateRes = none) (h7 : env.checkoutTrackingRes = none)
    (h8 : env.splitRes = none) (h9 : env.checkoutMasterRes = none)
    (h10 : env.addSubtreeRes = none) (h11 : env.stripOutcome = StripOutcome.ok r)
    (u1 : uenv.validateRepoRes = none) (u2 : uenv.backupRes = none)
    (u3 : uenv.fetchRemoteRes = none) (u4 : uenv.checkoutTrackingRes = none)
    (u5 : uenv.resetRes = none) (u6 : uenv.splitRes = none)
    (u7 : uenv.checkoutMasterRes = none) (u8 : uenv.mergeRes = none)
    (u9 : uenv.stripOutcome = StripOutcome.ok r) :
    (GitAction.commitCustomizations ∈ (initModel true env).1 ↔
        r.has_changes = true) ∧
      (GitAction.commitCustomizations ∈ (updateModel b true uenv).1 ↔
        r.has_changes = true) ∧
      (r.has_changes = true ↔
        (r.files_modified ≠ [] ∨ r.files_removed ≠ [])) := by
  refine ⟨?_, ?_, ?_⟩
  · cases hch : r.has_changes <;>
      simp [initModel, h1, h2, h3, h4, h5, h6, h7, h8, h9, h10, h11, hch]
  · cases hch : r.has_changes <;> cases b <;>
      simp [updateModel, updateRest, u1, u2, u3, u4, u5, u6, u7, u8, u9, hch]
  · rw [FirewallRemovalResult.has_changes]
    cases r.files_modified <;> cases r.files_removed <;> simp

/-- Witness for `c6_commit_iff_changes`: all steps succeed and the pass
reports one modified file, so both workflows attempt the commit. -/
theorem c6_commit_iff_changes_witness :
    (GitAction.commitCustomizations ∈
        (initModel true
          ⟨none, none, false, "", none, none, none, none, none, none, none,
            StripOutcome.ok ⟨["devcontainer.json"], [], [], [], [], []⟩⟩).1 ↔
        (⟨["devcontainer.json"], [], [], [], [], []⟩ :
          FirewallRemovalResult).has_changes = true) ∧
      (GitAction.commitCustomizations ∈
        (updateModel false true
          ⟨none, none, none, none, none, none, none, none,
            StripOutcome.ok ⟨["devcontainer.json"], [], [], [], [], []⟩⟩).1 ↔
        (⟨["devcontainer.json"], [], [], [], [], []⟩ :
          FirewallRemovalResult).has_changes = true) ∧
      ((⟨["devcontainer.json"], [], [], [], [], []⟩ :
          FirewallRemovalResult).has_changes = true ↔
        ((["devcontainer.json"] : List String) ≠ [] ∨ ([] : List String) ≠ [])) :=
  c6_commit_iff_changes
    ⟨none, none, false, "", none, none, none, none, none, none, none,
      StripOutcome.ok ⟨["devcontainer.json"], [], [], [], [], []⟩⟩
    ⟨none, none, none, none, none, none, none, none,
      StripOutcome.ok ⟨["devcontainer.json"], [], [], [], [], []⟩⟩
    false
    ⟨["devcontainer.json"], [], [], [], [], []⟩
    rfl rfl (by decide) rfl rfl rfl rfl rfl rfl rfl rfl
    rfl rfl rfl rfl rfl rfl rfl rfl rfl

end DevcontainerSync
